import Mathlib

/-!
Verification development for the `english_skills_101` posting script
(`src/script.py`): a shallow embedding of its components — session-cached
login, schedule selection, Google Drive download, video/story upload,
liker sampling, and the per-user engagement loop — together with a trace
model of the `__main__` control flow, and theorems settling the spec's
claims about them.
-/

set_option autoImplicit false

/-- One data row of `media_schedule.csv`: the "Date & Time" column
(UTC-normalized, embedded as an integer instant), "File Path" and
"Caption". -/
structure ScheduleRow where
  dateTime : Int
  filePath : String
  caption : String
  deriving DecidableEq, Repr, Inhabited

/-- Index and value of the first minimum of a list, mirroring pandas
`Series.idxmin` on a default `RangeIndex` (positions in file order):
`none` on the empty list (pandas raises), otherwise the position of the
first occurrence of the minimum together with that minimum. -/
def idxminVal : List Nat → Option (Nat × Nat)
  | [] => none
  | x :: xs =>
    match idxminVal xs with
    | none => some (0, x)
    | some (j, v) => if x ≤ v then some (0, x) else some (j + 1, v)

/-- Embedding of `get_closest_media_row` of `script.py`: compute the absolute time
delta of every row against the current time, take `idxmin` of the delta
column and return the row at that label via `.loc`. On a schedule with
zero rows, `Series.idxmin` raises `ValueError`, embedded as the error
case. -/
def get_closest_media_row (rows : List ScheduleRow) (now : Int) :
    Except String ScheduleRow :=
  match idxminVal (rows.map (fun r => (r.dateTime - now).natAbs)) with
  | none => Except.error "attempt to get argmin of an empty sequence"
  | some (i, _) =>
    match rows[i]? with
    | some r => Except.ok r
    | none => Except.error "index out of range"

theorem idxminVal_isSome (x : Nat) (xs : List Nat) :
    (idxminVal (x :: xs)).isSome = true := by
  simp only [idxminVal]
  cases idxminVal xs with
  | none => rfl
  | some p =>
    obtain ⟨j, v⟩ := p
    by_cases h : x ≤ v <;> simp [h]

theorem idxminVal_get : ∀ (l : List Nat) (i v : Nat),
    idxminVal l = some (i, v) → l[i]? = some v := by
  intro l
  induction l with
  | nil => intro i v h; simp [idxminVal] at h
  | cons x xs ih =>
    intro i v h
    simp only [idxminVal] at h
    cases hx : idxminVal xs with
    | none =>
      rw [hx] at h
      simp only [Option.some.injEq, Prod.mk.injEq] at h
      obtain ⟨hi, hv⟩ := h
      subst hi; subst hv
      simp
    | some p =>
      obtain ⟨j, w⟩ := p
      rw [hx] at h
      by_cases hc : x ≤ w
      · simp only [if_pos hc, Option.some.injEq, Prod.mk.injEq] at h
        obtain ⟨hi, hv⟩ := h
        subst hi; subst hv
        simp
      · simp only [if_neg hc, Option.some.injEq, Prod.mk.injEq] at h
        obtain ⟨hi, hv⟩ := h
        subst hi; subst hv
        simpa using ih j w hx

theorem idxminVal_min : ∀ (l : List Nat) (i v : Nat),
    idxminVal l = some (i, v) → ∀ (j : Nat) (hj : j < l.length),
      v ≤ l.get ⟨j, hj⟩ := by
  intro l
  induction l with
  | nil => intro i v h; simp [idxminVal] at h
  | cons x xs ih =>
    intro i v h j hj
    simp only [idxminVal] at h
    cases hx : idxminVal xs with
    | none =>
      rw [hx] at h
      simp only [Option.some.injEq, Prod.mk.injEq] at h
      obtain ⟨hi, hv⟩ := h
      subst hv
      have hxs : xs = [] := by
        cases xs with
        | nil => rfl
        | cons y ys => have := idxminVal_isSome y ys; rw [hx] at this; cases this
      subst hxs
      have hj0 : j = 0 := Nat.lt_one_iff.mp (by simpa using hj)
      subst hj0
      exact le_refl x
    | some p =>
      obtain ⟨j0, w⟩ := p
      rw [hx] at h
      by_cases hc : x ≤ w
      · simp only [if_pos hc, Option.some.injEq, Prod.mk.injEq] at h
        obtain ⟨hi, hv⟩ := h
        subst hv
        cases j with
        | zero => exact le_refl x
        | succ k =>
          have hk : k < xs.length := Nat.lt_of_succ_lt_succ hj
          exact le_trans hc (ih j0 w hx k hk)
      · simp only [if_neg hc, Option.some.injEq, Prod.mk.injEq] at h
        obtain ⟨hi, hv⟩ := h
        subst hv
        cases j with
        | zero => exact Nat.le_of_lt (Nat.lt_of_not_le hc)
        | succ k =>
          have hk : k < xs.length := Nat.lt_of_succ_lt_succ hj
          exact ih j0 w hx k hk

theorem idxminVal_first : ∀ (l : List Nat) (i v : Nat),
    idxminVal l = some (i, v) → ∀ (j : Nat), j < i →
      ∀ (hj : j < l.length), v < l.get ⟨j, hj⟩ := by
  intro l
  induction l with
  | nil => intro i v h; simp [idxminVal] at h
  | cons x xs ih =>
    intro i v h j hji hj
    simp only [idxminVal] at h
    cases hx : idxminVal xs with
    | none =>
      rw [hx] at h
      simp only [Option.some.injEq, Prod.mk.injEq] at h
      obtain ⟨hi, hv⟩ := h
      subst hi
      exact absurd hji (Nat.not_lt_zero j)
    | some p =>
      obtain ⟨j0, w⟩ := p
      rw [hx] at h
      by_cases hc : x ≤ w
      · simp only [if_pos hc, Option.some.injEq, Prod.mk.injEq] at h
        obtain ⟨hi, hv⟩ := h
        subst hi
        exact absurd hji (Nat.not_lt_zero j)
      · simp only [if_neg hc, Option.some.injEq, Prod.mk.injEq] at h
        obtain ⟨hi, hv⟩ := h
        subst hi; subst hv
        cases j with
        | zero => exact Nat.lt_of_not_le hc
        | succ k =>
          have hk : k < xs.length := Nat.lt_of_succ_lt_succ hj
          exact ih j0 w hx k (Nat.lt_of_succ_lt_succ hji) hk

/-- A Google Drive folder as returned by the `files().list` folder query
(only folders match the `mimeType = application/vnd.google-apps.folder`
clause, so the service's folder listing holds folders only). -/
structure DriveFolder where
  name : String
  id : String
  deriving DecidableEq, Repr

/-- A Google Drive file: name, id, parent folder ids, and the remote
bytes that `get_media` streams. -/
structure DriveFile where
  name : String
  id : String
  parents : List String
  content : List Nat
  deriving DecidableEq, Repr

/-- The authenticated Drive service: what its two `files().list` queries
can see. -/
structure DriveService where
  folders : List DriveFolder
  files : List DriveFile
  deriving DecidableEq, Repr

/-- Result of `download_file_from_drive`: the source prints a message and
returns `None` when the folder or the file is missing (the two cases are
distinguished only by the log line), otherwise it writes the remote bytes
to a local file named `file_name` and returns that path. -/
inductive DriveResult where
  | notFoundFolder
  | notFoundFile
  | downloaded (path : String) (content : List Nat)
  deriving DecidableEq, Repr

/-- The folder query `name = folder_name and mimeType = folder`. -/
def folderMatches (folder_name : String) (f : DriveFolder) : Bool :=
  f.name == folder_name

/-- The file query `name = file_name and folder_id in parents`. -/
def fileMatches (file_name folder_id : String) (f : DriveFile) : Bool :=
  f.name == file_name && f.parents.contains folder_id

/-- Embedding of `download_file_from_drive` of `script.py`: list folders matching the
name (first match wins), then files matching the name under that folder
(first match wins), then download the bytes to a local path equal to
`file_name`. -/
def download_file_from_drive (s : DriveService)
    (folder_name file_name : String) : DriveResult :=
  match s.folders.filter (folderMatches folder_name) with
  | [] => DriveResult.notFoundFolder
  | folder :: _ =>
    match s.files.filter (fileMatches file_name folder.id) with
    | [] => DriveResult.notFoundFile
    | file :: _ => DriveResult.downloaded file_name file.content

/-- Observable calls the run makes, in order: session-file and login
calls of `login_with_session`, the two uploads of
`upload_video_and_story`, `os.remove` calls, construction of a fresh
`Client()`, and the per-user calls of `process_usernames`. -/
inductive Event where
  | loadSession
  | reloginCall
  | loginCall
  | dumpSession
  | uploadPost (path caption : String)
  | uploadStory (path : String)
  | removeFile (path : String)
  | newClient
  | userInfoFetch (u : String)
  | mediaLike (u : String) (pk : Nat)
  deriving DecidableEq, Repr

def isAuthEvent : Event → Bool
  | Event.loadSession => true
  | Event.reloginCall => true
  | Event.loginCall => true
  | Event.dumpSession => true
  | _ => false

def isUploadEvent : Event → Bool
  | Event.uploadPost _ _ => true
  | Event.uploadStory _ => true
  | _ => false

def isRemoveEvent : Event → Bool
  | Event.removeFile _ => true
  | _ => false

/-- Events of the engagement pass: building the fresh client and the
social-API calls of `process_usernames`. -/
def isEngageEvent : Event → Bool
  | Event.newClient => true
  | Event.userInfoFetch _ => true
  | Event.mediaLike _ _ => true
  | _ => false

def isLikeEvent : Event → Bool
  | Event.mediaLike _ _ => true
  | _ => false

/-- Outcomes of the instagrapi client calls made by `login_with_session`:
whether `client.relogin()` succeeds after `load_settings`, whether
`client.login(username, password)` succeeds, and the settings string that
`dump_settings` writes after a fresh login. -/
structure IgLogin where
  reloginOk : Bool
  loginOk : Bool
  dumpContent : String
  deriving DecidableEq, Repr

/-- Embedding of `login_with_session` of `script.py`, over the content of the session
file at `session_file_path` (`none` = file does not exist). Returns the
session file's content after the call, the trace of calls made, and the
propagated error if `client.login` raised (a `relogin` failure is caught
and falls through to the fresh login). -/
def login_with_session (w : IgLogin) (sessionFile : Option String) :
    Option String × List Event × Option String :=
  match sessionFile with
  | some s =>
    if w.reloginOk then
      (some s, [Event.loadSession, Event.reloginCall], none)
    else if w.loginOk then
      (some w.dumpContent,
        [Event.loadSession, Event.reloginCall, Event.loginCall,
          Event.dumpSession], none)
    else
      (some s, [Event.loadSession, Event.reloginCall, Event.loginCall],
        some "login failed")
  | none =>
    if w.loginOk then
      (some w.dumpContent, [Event.loginCall, Event.dumpSession], none)
    else
      (none, [Event.loginCall], some "login failed")

/-- Outcomes of the two instagrapi upload calls: `none` = the call
succeeds, `some e` = it raises `e`. -/
structure UploadClient where
  postResult : String → String → Option String
  storyResult : String → Option String

/-- Embedding of `upload_video_and_story` of `script.py`: `video_upload(path, caption)`
then `video_upload_to_story(path)`; neither call is wrapped in a
try/except, so a failure propagates and the second call only happens
after the first succeeded. -/
def upload_video_and_story (c : UploadClient) (path caption : String) :
    List Event × Option String :=
  match c.postResult path caption with
  | some e => ([Event.uploadPost path caption], some e)
  | none =>
    match c.storyResult path with
    | some e => ([Event.uploadPost path caption, Event.uploadStory path],
        some e)
    | none => ([Event.uploadPost path caption, Event.uploadStory path],
        none)

/-- The fields of instagrapi's user info used by `process_usernames`. -/
structure UserInfo where
  pk : Nat
  is_private : Bool
  media_count : Nat
  deriving DecidableEq, Repr

/-- The instagrapi calls used by the sampler and the engagement loop:
`user_id_from_username`, `user_medias` (`mediasOf` is the account's full
media list, of which `user_medias(uid, amount)` returns the first
`amount`), `media_likers`, `user_info_by_username`, and `media_like`.
`none` (or `false` for `media_like`) models the call raising. -/
structure IgApi where
  userIdOf : String → Option Nat
  mediasOf : Nat → List Nat
  likersOf : Nat → Option (List String)
  userInfoOf : String → Option UserInfo
  likeOk : Nat → Bool

/-- Embedding of `random.choice`: an element of a nonempty list (the draw `r` is
abstracted as an arbitrary natural, reduced mod the length); raises on an
empty list, embedded as `none`. -/
def choice {α : Type} (r : Nat) (l : List α) : Option α :=
  l[r % l.length]?

/-- The body of the `try` block of `get_random_likers_from_targets`:
pick a target, resolve its user id, fetch up to 10 recent posts, return
`[]` if there are none, else pick a post, fetch its likers, and return
the first 10 liker usernames. Any raising call is an `error`. -/
def samplerInner (api : IgApi) (rA rB : Nat) (targets : List String) :
    Except String (List String) :=
  match choice rA targets with
  | none => Except.error "cannot choose from an empty sequence"
  | some target =>
    match api.userIdOf target with
    | none => Except.error "user lookup failed"
    | some uid =>
      let medias := (api.mediasOf uid).take 10
      if medias.isEmpty then Except.ok []
      else
        match choice rB medias with
        | none => Except.error "cannot choose from an empty sequence"
        | some post =>
          match api.likersOf post with
          | none => Except.error "media likers fetch failed"
          | some likers => Except.ok (likers.take 10)

/-- Embedding of `get_random_likers_from_targets` of `script.py`: the whole body is
wrapped in `try/except Exception`, which logs and returns `[]`. -/
def get_random_likers_from_targets (api : IgApi) (rA rB : Nat)
    (targets : List String) : List String :=
  match samplerInner api rA rB targets with
  | Except.ok l => l
  | Except.error _ => []

/-- The inner `for media in media_list: cl.media_like(media.pk)` loop:
each iteration calls `media_like`; if the call raises, the per-user
`except` catches it, so the remaining likes of this user are skipped. -/
def likeLoop (api : IgApi) (u : String) : List Nat → List Event
  | [] => []
  | pk :: rest =>
    Event.mediaLike u pk ::
      (if api.likeOk pk then likeLoop api u rest else [])

/-- One iteration of `process_usernames` for user `u`: fetch the user
info (a raising call is caught, ending this user's processing); if the
account is public and has more than 4 posts, like its first 4 posts. -/
def process_user (api : IgApi) (u : String) : List Event :=
  match api.userInfoOf u with
  | none => [Event.userInfoFetch u]
  | some info =>
    Event.userInfoFetch u ::
      (if info.is_private = false ∧ 4 < info.media_count then
        likeLoop api u ((api.mediasOf info.pk).take 4)
      else [])

/-- Embedding of `process_usernames` of `script.py`: each user is processed inside its
own try/except, so the loop always continues to the next user. -/
def process_usernames (api : IgApi) : List String → List Event
  | [] => []
  | u :: rest => process_user api u ++ process_usernames api rest

/-- The hard-coded target account list of `__main__`. -/
def target_usernames : List String :=
  ["howimetyourmotherthefanpage", "itstedntracy", "himymfeeds",
    "himymaddiict", "friendsadiction"]

/-- Everything the run's environment determines: the session file's
initial content, the outcomes of the two `login_with_session` calls, the
schedule and the current UTC time, the Drive contents, the upload
outcomes, whether the `.jpg` sidecar exists, the social-API environment
of the engagement pass, and the two random draws. -/
structure World where
  sessionFile : Option String
  login1 : IgLogin
  login2 : IgLogin
  schedule : List ScheduleRow
  now : Int
  drive : DriveService
  uploader : UploadClient
  jpgExists : Bool
  api : IgApi
  rA : Nat
  rB : Nat

/-- Lines 214-220 of `__main__`: harvest likers; `if usernames:` guards
building a fresh `Client()`, the second `login_with_session`, and
`process_usernames`. -/
def engagePhase (w : World) (sess1 : Option String) :
    List Event × Option String :=
  let usernames :=
    get_random_likers_from_targets w.api w.rA w.rB target_usernames
  if usernames.isEmpty then ([], none)
  else
    match login_with_session w.login2 sess1 with
    | (_, ev2, some e) => (Event.newClient :: ev2, some e)
    | (_, ev2, none) =>
      (Event.newClient :: (ev2 ++ process_usernames w.api usernames), none)

/-- Lines 208-220 of `__main__`: upload (an upload error propagates and
aborts the run before any cleanup), then remove the downloaded file and
its `.jpg` sidecar when that exists, then the engagement phase. -/
def afterDownload (w : World) (sess1 : Option String)
    (path caption : String) : List Event × Option String :=
  match upload_video_and_story w.uploader path caption with
  | (evU, some e) => (evU, some e)
  | (evU, none) =>
    let evR := Event.removeFile path ::
      (if w.jpgExists then [Event.removeFile (path ++ ".jpg")] else [])
    match engagePhase w sess1 with
    | (evE, errE) => (evU ++ evR ++ evE, errE)

/-- Lines 201-220 of `__main__`: select the closest schedule row (a
raising selector aborts the run; a returned `.loc` row is never empty,
so the `if not media_row.empty` guard passes), download from the
`english_skills_101` folder (the `None` sentinel skips everything
downstream), then publish, clean up and engage. -/
def afterLogin (w : World) (sess1 : Option String) :
    List Event × Option String :=
  match get_closest_media_row w.schedule w.now with
  | Except.error e => ([], some e)
  | Except.ok row =>
    match download_file_from_drive w.drive "english_skills_101"
        row.filePath with
    | DriveResult.notFoundFolder => ([], none)
    | DriveResult.notFoundFile => ([], none)
    | DriveResult.downloaded path _ => afterDownload w sess1 path row.caption

/-- The `__main__` run from the first `login_with_session` on: the event
trace and the error the process dies with, if any. -/
def mainRun (w : World) : List Event × Option String :=
  match login_with_session w.login1 w.sessionFile with
  | (_, ev1, some e) => (ev1, some e)
  | (sess1, ev1, none) =>
    match afterLogin w sess1 with
    | (ev, err) => (ev1 ++ ev, err)

theorem login_countP_engage (w : IgLogin) (s : Option String) :
    ((login_with_session w s).2.1).countP isEngageEvent = 0 := by
  obtain ⟨r, lo, d⟩ := w
  cases s <;> cases r <;> cases lo <;> rfl

theorem login_countP_upload (w : IgLogin) (s : Option String) :
    ((login_with_session w s).2.1).countP isUploadEvent = 0 := by
  obtain ⟨r, lo, d⟩ := w
  cases s <;> cases r <;> cases lo <;> rfl

theorem login_filter_remove (w : IgLogin) (s : Option String) :
    ((login_with_session w s).2.1).filter isRemoveEvent = [] := by
  obtain ⟨r, lo, d⟩ := w
  cases s <;> cases r <;> cases lo <;> rfl

theorem upload_trace_counts (c : UploadClient) (path caption : String) :
    ((upload_video_and_story c path caption).1).countP isEngageEvent = 0 ∧
    ((upload_video_and_story c path caption).1).countP isAuthEvent = 0 ∧
    ((upload_video_and_story c path caption).1).filter isRemoveEvent = [] := by
  unfold upload_video_and_story
  cases c.postResult path caption with
  | some e => exact ⟨rfl, rfl, rfl⟩
  | none => cases c.storyResult path with
    | some e => exact ⟨rfl, rfl, rfl⟩
    | none => exact ⟨rfl, rfl, rfl⟩

theorem likeLoop_engage (api : IgApi) (u : String) :
    ∀ (l : List Nat), ∀ e ∈ likeLoop api u l, isEngageEvent e = true := by
  intro l
  induction l with
  | nil => intro e he; cases he
  | cons pk rest ih =>
    intro e he
    simp only [likeLoop] at he
    rcases List.mem_cons.mp he with h | h
    · subst h; rfl
    · by_cases hk : api.likeOk pk
      · rw [if_pos hk] at h; exact ih e h
      · rw [if_neg hk] at h; cases h

theorem process_user_engage (api : IgApi) (u : String) :
    ∀ e ∈ process_user api u, isEngageEvent e = true := by
  intro e he
  simp only [process_user] at he
  cases hu : api.userInfoOf u with
  | none =>
    rw [hu] at he
    rcases List.mem_cons.mp he with h | h
    · subst h; rfl
    · cases h
  | some info =>
    rw [hu] at he
    rcases List.mem_cons.mp he with h | h
    · subst h; rfl
    · split at h
      · exact likeLoop_engage api u _ e h
      · cases h

theorem process_usernames_engage (api : IgApi) :
    ∀ (us : List String), ∀ e ∈ process_usernames api us,
      isEngageEvent e = true := by
  intro us
  induction us with
  | nil => intro e he; cases he
  | cons u rest ih =>
    intro e he
    simp only [process_usernames] at he
    rcases List.mem_append.mp he with h | h
    · exact process_user_engage api u e h
    · exact ih e h

theorem process_usernames_countP_auth (api : IgApi) (us : List String) :
    (process_usernames api us).countP isAuthEvent = 0 := by
  rw [List.countP_eq_zero]
  intro e he
  have h := process_usernames_engage api us e he
  cases e <;> simp_all [isEngageEvent, isAuthEvent]

theorem process_usernames_countP_upload (api : IgApi) (us : List String) :
    (process_usernames api us).countP isUploadEvent = 0 := by
  rw [List.countP_eq_zero]
  intro e he
  have h := process_usernames_engage api us e he
  cases e <;> simp_all [isEngageEvent, isUploadEvent]

theorem process_usernames_filter_remove (api : IgApi) (us : List String) :
    (process_usernames api us).filter isRemoveEvent = [] := by
  rw [List.filter_eq_nil_iff]
  intro e he
  have h := process_usernames_engage api us e he
  cases e <;> simp_all [isEngageEvent, isRemoveEvent]

theorem engagePhase_empty (w : World) (s1 : Option String)
    (h : get_random_likers_from_targets w.api w.rA w.rB target_usernames
      = []) :
    engagePhase w s1 = ([], none) := by
  simp only [engagePhase, h]
  rfl

theorem engagePhase_filter_remove (w : World) (s1 : Option String) :
    ((engagePhase w s1).1).filter isRemoveEvent = [] := by
  simp only [engagePhase]
  split
  · rfl
  · rcases h2 : login_with_session w.login2 s1 with ⟨s2, ev2, err2⟩
    have hev2 := login_filter_remove w.login2 s1
    rw [h2] at hev2
    cases err2 with
    | some e =>
      simp only [List.filter_cons]
      simpa [isRemoveEvent] using hev2
    | none =>
      simp only [List.filter_cons, List.filter_append]
      simp [isRemoveEvent, hev2, process_usernames_filter_remove]

/-- C2: for every schedule with at least one row, `get_closest_media_row`
returns a row; any returned row sits at some index `i`, its absolute time
distance to `now` is minimal over all rows, and every row before index
`i` has strictly greater distance — the first minimum in file order. -/
theorem C2_closest_row (rows : List ScheduleRow) (now : Int) :
    (rows ≠ [] → ∃ r, get_closest_media_row rows now = Except.ok r) ∧
    (∀ r, get_closest_media_row rows now = Except.ok r →
      ∃ i, rows[i]? = some r ∧
        (∀ (j : Nat) (hj : j < rows.length),
          (r.dateTime - now).natAbs ≤
            ((rows.get ⟨j, hj⟩).dateTime - now).natAbs) ∧
        (∀ (j : Nat), j < i → ∀ (hj : j < rows.length),
          (r.dateTime - now).natAbs <
            ((rows.get ⟨j, hj⟩).dateTime - now).natAbs)) := by
  constructor
  · intro hne
    cases hrows : rows with
    | nil => exact absurd hrows hne
    | cons a as =>
      subst hrows
      have hsome := idxminVal_isSome ((a.dateTime - now).natAbs)
        (as.map (fun r => (r.dateTime - now).natAbs))
      rw [Option.isSome_iff_exists] at hsome
      obtain ⟨⟨i, v⟩, hiv⟩ := hsome
      have hiv2 : idxminVal ((a :: as).map
          (fun r => (r.dateTime - now).natAbs)) = some (i, v) := by
        simpa using hiv
      have hget := idxminVal_get _ _ _ hiv2
      rw [List.getElem?_map] at hget
      cases hr : (a :: as)[i]? with
      | none => rw [hr] at hget; cases hget
      | some r =>
        refine ⟨r, ?_⟩
        simp only [get_closest_media_row, hiv2, hr]
  · intro r h
    cases hm : idxminVal (rows.map (fun q => (q.dateTime - now).natAbs)) with
    | none => simp only [get_closest_media_row, hm] at h; cases h
    | some p =>
      obtain ⟨i, v⟩ := p
      simp only [get_closest_media_row, hm] at h
      cases hr : rows[i]? with
      | none => rw [hr] at h; cases h
      | some r0 =>
        rw [hr] at h
        have hr0 : r0 = r := Except.ok.inj h
        rw [hr0] at hr
        have hget := idxminVal_get _ _ _ hm
        rw [List.getElem?_map, hr] at hget
        have hfv : (r.dateTime - now).natAbs = v := Option.some.inj hget
        refine ⟨i, hr, ?_, ?_⟩
        · intro j hj
          have hj2 : j < (rows.map
              (fun q => (q.dateTime - now).natAbs)).length := by
            simpa using hj
          have hmin := idxminVal_min _ _ _ hm j hj2
          rw [List.get_eq_getElem, List.getElem_map] at hmin
          rw [List.get_eq_getElem, hfv]
          exact hmin
        · intro j hji hj
          have hj2 : j < (rows.map
              (fun q => (q.dateTime - now).natAbs)).length := by
            simpa using hj
          have hlt := idxminVal_first _ _ _ hm j hji hj2
          rw [List.get_eq_getElem, List.getElem_map] at hlt
          rw [List.get_eq_getElem, hfv]
          exact hlt

/-- Witness for C2: a concrete two-row schedule, nonempty, on which the
selector returns a row. -/
theorem C2_closest_row_witness :
    ∃ r, get_closest_media_row
      [⟨10, "a.mp4", "c1"⟩, ⟨3, "b.mp4", "c2"⟩] 0 = Except.ok r :=
  (C2_closest_row [⟨10, "a.mp4", "c1"⟩, ⟨3, "b.mp4", "c2"⟩] 0).1 (by simp)

/-- C1 (refuting the claimed behavior): on a schedule with zero data rows
`get_closest_media_row` does not return a falsy empty result — the
`idxmin` of the empty delta column raises, so the selector errors and the
run aborts with that error before the caller's `media_row.empty` check;
no upload or engagement work happens, but only because the process dies. -/
theorem C1_empty_schedule_raises :
    (∀ now : Int, get_closest_media_row [] now =
      Except.error "attempt to get argmin of an empty sequence") ∧
    (∀ w : World, w.schedule = [] →
      (login_with_session w.login1 w.sessionFile).2.2 = none →
      (mainRun w).2 = some "attempt to get argmin of an empty sequence" ∧
      (mainRun w).1.countP isUploadEvent = 0 ∧
      (mainRun w).1.countP isEngageEvent = 0) := by
  constructor
  · intro now; rfl
  · intro w hsched hlog
    rcases hL : login_with_session w.login1 w.sessionFile with ⟨s1, ev1, err1⟩
    rw [hL] at hlog
    simp only at hlog
    subst hlog
    have hAfter : afterLogin w s1 = ([], some
        "attempt to get argmin of an empty sequence") := by
      simp only [afterLogin, hsched]
      rfl
    simp only [mainRun, hL, hAfter]
    refine ⟨by trivial, ?_, ?_⟩
    · have h1 := login_countP_upload w.login1 w.sessionFile
      rw [hL] at h1
      simpa using h1
    · have h1 := login_countP_engage w.login1 w.sessionFile
      rw [hL] at h1
      simpa using h1

/-- Witness for C1 at a concrete world with an empty schedule: the run
aborts with the `idxmin` error and performs no upload and no engagement
call. -/
theorem C1_empty_schedule_raises_witness :
    (mainRun ⟨none, ⟨true, true, "sess"⟩, ⟨true, true, "sess"⟩, [], 0,
        ⟨[], []⟩, ⟨fun _ _ => none, fun _ => none⟩, false,
        ⟨fun _ => none, fun _ => [], fun _ => none, fun _ => none,
          fun _ => true⟩, 0, 0⟩).2 =
      some "attempt to get argmin of an empty sequence" ∧
    (mainRun ⟨none, ⟨true, true, "sess"⟩, ⟨true, true, "sess"⟩, [], 0,
        ⟨[], []⟩, ⟨fun _ _ => none, fun _ => none⟩, false,
        ⟨fun _ => none, fun _ => [], fun _ => none, fun _ => none,
          fun _ => true⟩, 0, 0⟩).1.countP isUploadEvent = 0 ∧
    (mainRun ⟨none, ⟨true, true, "sess"⟩, ⟨true, true, "sess"⟩, [], 0,
        ⟨[], []⟩, ⟨fun _ _ => none, fun _ => none⟩, false,
        ⟨fun _ => none, fun _ => [], fun _ => none, fun _ => none,
          fun _ => true⟩, 0, 0⟩).1.countP isEngageEvent = 0 :=
  C1_empty_schedule_raises.2 _ rfl rfl

/-- C3: `download_file_from_drive` reports the folder-not-found sentinel
exactly when no folder matches `folder_name`, the file-not-found sentinel
exactly when a folder matches but no file matching `file_name` lies under
the first such folder, and otherwise returns a local path equal to
`file_name` carrying the first matching remote file's bytes; in the main
run either not-found sentinel short-circuits publish and engagement. -/
theorem C3_download_file (s : DriveService) (fo fi : String) :
    (download_file_from_drive s fo fi = DriveResult.notFoundFolder ↔
      s.folders.filter (folderMatches fo) = []) ∧
    (download_file_from_drive s fo fi = DriveResult.notFoundFile ↔
      ∃ folder rest, s.folders.filter (folderMatches fo) = folder :: rest ∧
        s.files.filter (fileMatches fi folder.id) = []) ∧
    (∀ (p : String) (c : List Nat),
      download_file_from_drive s fo fi = DriveResult.downloaded p c →
        p = fi ∧ ∃ folder restFo file restFi,
          s.folders.filter (folderMatches fo) = folder :: restFo ∧
          s.files.filter (fileMatches fi folder.id) = file :: restFi ∧
          c = file.content) ∧
    (∀ (w : World) (row : ScheduleRow),
      get_closest_media_row w.schedule w.now = Except.ok row →
      (download_file_from_drive w.drive "english_skills_101" row.filePath =
          DriveResult.notFoundFolder ∨
        download_file_from_drive w.drive "english_skills_101" row.filePath =
          DriveResult.notFoundFile) →
      (mainRun w).1.countP isUploadEvent = 0 ∧
      (mainRun w).1.countP isEngageEvent = 0) := by
  refine ⟨?_, ?_, ?_, ?_⟩
  · cases hfo : s.folders.filter (folderMatches fo) with
    | nil => simp [download_file_from_drive, hfo]
    | cons folder rest =>
      simp only [download_file_from_drive, hfo]
      cases hfi : s.files.filter (fileMatches fi folder.id) with
      | nil => simp [hfi]
      | cons file restF => simp [hfi]
  · cases hfo : s.folders.filter (folderMatches fo) with
    | nil =>
      simp only [download_file_from_drive, hfo]
      constructor
      · intro h; cases h
      · rintro ⟨folder, rest, hcons, _⟩
        cases hcons
    | cons folder rest =>
      simp only [download_file_from_drive, hfo]
      cases hfi : s.files.filter (fileMatches fi folder.id) with
      | nil =>
        simp only [hfi]
        constructor
        · intro _; exact ⟨folder, rest, rfl, hfi⟩
        · intro _; trivial
      | cons file restF =>
        simp only [hfi]
        constructor
        · intro h; cases h
        · rintro ⟨folder2, rest2, hcons, hnil⟩
          injection hcons with h1 h2
          subst h1
          rw [hnil] at hfi
          cases hfi
  · intro p c h
    cases hfo : s.folders.filter (folderMatches fo) with
    | nil => simp only [download_file_from_drive, hfo] at h; cases h
    | cons folder rest =>
      simp only [download_file_from_drive, hfo] at h
      cases hfi : s.files.filter (fileMatches fi folder.id) with
      | nil => rw [hfi] at h; cases h
      | cons file restF =>
        rw [hfi] at h
        simp only [DriveResult.downloaded.injEq] at h
        obtain ⟨hp, hc⟩ := h
        subst hp; subst hc
        exact ⟨rfl, folder, rest, file, restF, rfl, hfi, rfl⟩
  · intro w row hrow hnf
    rcases hL : login_with_session w.login1 w.sessionFile with ⟨s1, ev1, err1⟩
    have hup := login_countP_upload w.login1 w.sessionFile
    have heng := login_countP_engage w.login1 w.sessionFile
    rw [hL] at hup heng
    cases err1 with
    | some e =>
      simp only [mainRun, hL]
      exact ⟨by simpa using hup, by simpa using heng⟩
    | none =>
      have hAfter : afterLogin w s1 = ([], none) := by
        simp only [afterLogin, hrow]
        rcases hnf with h | h <;> rw [h]
      simp only [mainRun, hL, hAfter]
      constructor
      · simpa using hup
      · simpa using heng

/-- Witness for C3 at a concrete Drive state: the file lookup succeeds and
the returned local path and bytes are pinned down. -/
theorem C3_download_file_witness :
    "x.mp4" = "x.mp4" ∧ ∃ folder restFo file restFi,
      (DriveService.mk [⟨"english_skills_101", "fid"⟩]
          [⟨"x.mp4", "id1", ["fid"], [7, 8, 9]⟩]).folders.filter
          (folderMatches "english_skills_101") = folder :: restFo ∧
      (DriveService.mk [⟨"english_skills_101", "fid"⟩]
          [⟨"x.mp4", "id1", ["fid"], [7, 8, 9]⟩]).files.filter
          (fileMatches "x.mp4" folder.id) = file :: restFi ∧
      [7, 8, 9] = file.content :=
  (C3_download_file (DriveService.mk [⟨"english_skills_101", "fid"⟩]
      [⟨"x.mp4", "id1", ["fid"], [7, 8, 9]⟩])
      "english_skills_101" "x.mp4").2.2.1 "x.mp4" [7, 8, 9] (by decide)

/-- C4: `login_with_session` — with an existing session file it loads the
file and attempts `relogin`, returning at once on success; when `relogin`
fails it falls back to a full credential login; and after every full
login (fallback or first-time) it writes the dumped session state to the
path, overwriting any prior content. -/
theorem C4_login_with_session (w : IgLogin) (s : String) :
    (w.reloginOk = true →
      login_with_session w (some s) =
        (some s, [Event.loadSession, Event.reloginCall], none)) ∧
    (w.reloginOk = false → w.loginOk = true →
      login_with_session w (some s) =
        (some w.dumpContent,
          [Event.loadSession, Event.reloginCall, Event.loginCall,
            Event.dumpSession], none)) ∧
    (w.loginOk = true →
      login_with_session w none =
        (some w.dumpContent, [Event.loginCall, Event.dumpSession], none)) := by
  obtain ⟨r, lo, d⟩ := w
  refine ⟨?_, ?_, ?_⟩
  · intro hr
    simp only at hr
    subst hr
    rfl
  · intro hr hlo
    simp only at hr hlo
    subst hr; subst hlo
    rfl
  · intro hlo
    simp only at hlo
    subst hlo
    rfl

/-- Witness for C4: with a live session the call returns at once and the
file keeps its old content. -/
theorem C4_login_with_session_witness :
    login_with_session ⟨true, true, "fresh"⟩ (some "old") =
      (some "old", [Event.loadSession, Event.reloginCall], none) :=
  (C4_login_with_session ⟨true, true, "fresh"⟩ "old").1 rfl

/-- C10: when a session file exists and `relogin` succeeds,
`login_with_session` returns without writing — the file's content after
the call equals its content before and no `dump_settings` call happens;
and a `dump_settings` call only ever happens on a path that performed the
full `login`. -/
theorem C10_no_write_on_relogin (w : IgLogin) (s : String) :
    (w.reloginOk = true →
      (login_with_session w (some s)).1 = some s ∧
      Event.dumpSession ∉ (login_with_session w (some s)).2.1) ∧
    (∀ sf : Option String,
      Event.dumpSession ∈ (login_with_session w sf).2.1 →
      Event.loginCall ∈ (login_with_session w sf).2.1) := by
  obtain ⟨r, lo, d⟩ := w
  constructor
  · intro hr
    simp only at hr
    subst hr
    exact ⟨rfl, by simp [login_with_session]⟩
  · intro sf hmem
    cases sf <;> cases r <;> cases lo <;>
      simp_all [login_with_session]

/-- Witness for C10: with a successful relogin the session file content
is unchanged and no dump call is made. -/
theorem C10_no_write_on_relogin_witness :
    (login_with_session ⟨true, false, "fresh"⟩ (some "old")).1 = some "old" ∧
    Event.dumpSession ∉
      (login_with_session ⟨true, false, "fresh"⟩ (some "old")).2.1 :=
  (C10_no_write_on_relogin ⟨true, false, "fresh"⟩ "old").1 rfl

/-- C8: `upload_video_and_story` uploads the asset first as a feed post
with the given caption, then — sequentially and only after the post call
returned — as a story with no caption; a failure of either call is not
caught and the error propagates, and in the main run an upload error
aborts the run before any cleanup. -/
theorem C8_upload_video_and_story (c : UploadClient) (path caption : String) :
    (c.postResult path caption = none → c.storyResult path = none →
      upload_video_and_story c path caption =
        ([Event.uploadPost path caption, Event.uploadStory path], none)) ∧
    (∀ e, c.postResult path caption = some e →
      upload_video_and_story c path caption =
        ([Event.uploadPost path caption], some e)) ∧
    (∀ e, c.postResult path caption = none → c.storyResult path = some e →
      upload_video_and_story c path caption =
        ([Event.uploadPost path caption, Event.uploadStory path], some e)) ∧
    (∀ (w : World) (row : ScheduleRow) (p : String) (cont : List Nat) (e : String),
      get_closest_media_row w.schedule w.now = Except.ok row →
      download_file_from_drive w.drive "english_skills_101" row.filePath =
        DriveResult.downloaded p cont →
      (upload_video_and_story w.uploader p row.caption).2 = some e →
      (mainRun w).2 ≠ none ∧
      (mainRun w).1.countP isRemoveEvent = 0 ∧
      (mainRun w).1.countP isEngageEvent = 0) := by
  refine ⟨?_, ?_, ?_, ?_⟩
  · intro hp hs
    simp only [upload_video_and_story, hp, hs]
  · intro e hp
    simp only [upload_video_and_story, hp]
  · intro e hp hs
    simp only [upload_video_and_story, hp, hs]
  · intro w row p cont e hrow hdl hup
    rcases hL : login_with_session w.login1 w.sessionFile with ⟨s1, ev1, err1⟩
    have hrm : (ev1.countP isRemoveEvent) = 0 := by
      have h1 := login_filter_remove w.login1 w.sessionFile
      rw [hL] at h1
      simp only at h1
      rw [List.countP_eq_length_filter, h1]
      rfl
    have heng : (ev1.countP isEngageEvent) = 0 := by
      have h1 := login_countP_engage w.login1 w.sessionFile
      rw [hL] at h1
      simpa using h1
    cases err1 with
    | some e2 =>
      simp only [mainRun, hL]
      exact ⟨by simp, hrm, heng⟩
    | none =>
      rcases hU : upload_video_and_story w.uploader p row.caption with ⟨evU, errU⟩
      rw [hU] at hup
      simp only at hup
      subst hup
      have hAfter : afterLogin w s1 = (evU, some e) := by
        simp only [afterLogin, hrow, hdl, afterDownload, hU]
      have hUrm : evU.countP isRemoveEvent = 0 := by
        have h1 := (upload_trace_counts w.uploader p row.caption).2.2
        rw [hU] at h1
        simp only at h1
        rw [List.countP_eq_length_filter, h1]
        rfl
      have hUeng : evU.countP isEngageEvent = 0 := by
        have h1 := (upload_trace_counts w.uploader p row.caption).1
        rw [hU] at h1
        simpa using h1
      simp only [mainRun, hL, hAfter]
      refine ⟨by simp, ?_, ?_⟩
      · rw [List.countP_append, hrm, hUrm]
      · rw [List.countP_append, heng, hUeng]

/-- Witness for C8: a client whose post upload fails with "boom" performs
no story upload and propagates the error. -/
theorem C8_upload_video_and_story_witness :
    upload_video_and_story
        ⟨fun _ _ => some "boom", fun _ => none⟩ "x.mp4" "hello" =
      ([Event.uploadPost "x.mp4" "hello"], some "boom") :=
  (C8_upload_video_and_story ⟨fun _ _ => some "boom", fun _ => none⟩
    "x.mp4" "hello").2.1 "boom" rfl

theorem likeLoop_countP_le (api : IgApi) (u : String) :
    ∀ (l : List Nat), (likeLoop api u l).countP isLikeEvent ≤ l.length := by
  intro l
  induction l with
  | nil => exact Nat.le_refl 0
  | cons pk rest ih =>
    simp only [likeLoop, List.countP_cons]
    by_cases hk : api.likeOk pk
    · rw [if_pos hk]
      simpa [isLikeEvent] using Nat.add_le_add_right ih 1
    · rw [if_neg hk]
      simp [isLikeEvent, List.countP_nil]

/-- C5: the engagement loop makes at most 4 like calls per processed
user, makes none at all for a user who is private or has at most 4
posts, and per-user failures are isolated — the trace of a username list
is the concatenation of independent per-user traces, so one user's error
never aborts the processing of the rest. -/
theorem C5_process_usernames (api : IgApi) :
    (∀ u : String, (process_user api u).countP isLikeEvent ≤ 4) ∧
    (∀ (u : String) (info : UserInfo), api.userInfoOf u = some info →
      info.is_private = true ∨ info.media_count ≤ 4 →
      (process_user api u).countP isLikeEvent = 0) ∧
    (∀ us1 us2 : List String,
      process_usernames api (us1 ++ us2) =
        process_usernames api us1 ++ process_usernames api us2) ∧
    (∀ (u : String) (rest : List String),
      process_usernames api (u :: rest) =
        process_user api u ++ process_usernames api rest) := by
  refine ⟨?_, ?_, ?_, ?_⟩
  · intro u
    simp only [process_user]
    cases hu : api.userInfoOf u with
    | none => simp [isLikeEvent]
    | some info =>
      simp only [List.countP_cons, isLikeEvent]
      split
      · have h1 := likeLoop_countP_le api u ((api.mediasOf info.pk).take 4)
        have h2 : ((api.mediasOf info.pk).take 4).length ≤ 4 := by
          rw [List.length_take]
          exact min_le_left 4 _
        simpa using le_trans h1 h2
      · simp
  · intro u info hu hskip
    simp only [process_user, hu, List.countP_cons, isLikeEvent]
    have hcond : ¬(info.is_private = false ∧ 4 < info.media_count) := by
      rcases hskip with h | h
      · intro hc; rw [hc.1] at h; cases h
      · intro hc; omega
    rw [if_neg hcond]
    rfl
  · intro us1 us2
    induction us1 with
    | nil => rfl
    | cons u rest ih =>
      simp only [List.cons_append, process_usernames, List.append_eq, ih,
        List.append_assoc]
  · intro u rest
    rfl

/-- Witness for C5: a private user gets zero like calls. -/
theorem C5_process_usernames_witness :
    (process_user
        ⟨fun _ => some 1, fun _ => [10, 11, 12, 13, 14], fun _ => some [],
          fun _ => some ⟨1, true, 9⟩, fun _ => true⟩
        "someone").countP isLikeEvent = 0 :=
  (C5_process_usernames
      ⟨fun _ => some 1, fun _ => [10, 11, 12, 13, 14], fun _ => some [],
        fun _ => some ⟨1, true, 9⟩, fun _ => true⟩).2.1
    "someone" ⟨1, true, 9⟩ rfl (Or.inl rfl)

theorem samplerInner_ok_length (api : IgApi) (rA rB : Nat)
    (targets : List String) (l : List String)
    (h : samplerInner api rA rB targets = Except.ok l) : l.length ≤ 10 := by
  cases hc : choice rA targets with
  | none => simp only [samplerInner, hc] at h; cases h
  | some target =>
    simp only [samplerInner, hc] at h
    cases hu : api.userIdOf target with
    | none => simp only [hu] at h; cases h
    | some uid =>
      simp only [hu] at h
      by_cases hm : ((api.mediasOf uid).take 10).isEmpty
      · rw [if_pos hm] at h
        obtain rfl := Except.ok.inj h
        exact Nat.zero_le 10
      · rw [if_neg hm] at h
        cases hp : choice rB ((api.mediasOf uid).take 10) with
        | none => simp only [hp] at h; cases h
        | some post =>
          simp only [hp] at h
          cases hl : api.likersOf post with
          | none => simp only [hl] at h; cases h
          | some likers =>
            simp only [hl] at h
            obtain rfl := Except.ok.inj h
            rw [List.length_take]
            exact min_le_left 10 _

/-- C6: `get_random_likers_from_targets` never raises — every error of
the inner body is caught and yields `[]` — its result never holds more
than 10 usernames, and it returns `[]` when the chosen account has zero
posts. -/
theorem C6_get_random_likers (api : IgApi) (rA rB : Nat)
    (targets : List String) :
    (get_random_likers_from_targets api rA rB targets).length ≤ 10 ∧
    (∀ e, samplerInner api rA rB targets = Except.error e →
      get_random_likers_from_targets api rA rB targets = []) ∧
    (∀ (t : String) (uid : Nat), choice rA targets = some t →
      api.userIdOf t = some uid → api.mediasOf uid = [] →
      get_random_likers_from_targets api rA rB targets = []) := by
  refine ⟨?_, ?_, ?_⟩
  · cases hs : samplerInner api rA rB targets with
    | ok l =>
      simp only [get_random_likers_from_targets, hs]
      exact samplerInner_ok_length api rA rB targets l hs
    | error e =>
      simp only [get_random_likers_from_targets, hs]
      exact Nat.zero_le 10
  · intro e hs
    simp only [get_random_likers_from_targets, hs]
  · intro t uid hc hu hm
    have hs : samplerInner api rA rB targets = Except.ok [] := by
      simp only [samplerInner, hc, hu, hm]
      rfl
    simp only [get_random_likers_from_targets, hs]

/-- Witness for C6: a chosen account with zero posts yields `[]`. -/
theorem C6_get_random_likers_witness :
    get_random_likers_from_targets
      ⟨fun _ => some 7, fun _ => [], fun _ => some ["a", "b"],
        fun _ => none, fun _ => true⟩ 0 0 ["target1", "target2"] = [] :=
  (C6_get_random_likers
      ⟨fun _ => some 7, fun _ => [], fun _ => some ["a", "b"],
        fun _ => none, fun _ => true⟩ 0 0 ["target1", "target2"]).2.2
    "target1" 7 rfl rfl rfl

theorem removal_trace_counts (path : String) (b : Bool) :
    (Event.removeFile path ::
      (if b then [Event.removeFile (path ++ ".jpg")] else [])).countP
        isEngageEvent = 0 ∧
    (Event.removeFile path ::
      (if b then [Event.removeFile (path ++ ".jpg")] else [])).countP
        isAuthEvent = 0 := by
  cases b <;> exact ⟨rfl, rfl⟩

/-- C7: whenever the liker sampler returns the empty list, the main run
skips the engagement pass entirely — the run's trace holds no fresh
client construction and no engagement API call, and its authentication
calls are exactly those of the first login (no re-authentication). -/
theorem C7_skip_engagement (w : World)
    (h : get_random_likers_from_targets w.api w.rA w.rB target_usernames
      = []) :
    (mainRun w).1.countP isEngageEvent = 0 ∧
    (mainRun w).1.countP isAuthEvent =
      ((login_with_session w.login1 w.sessionFile).2.1).countP
        isAuthEvent := by
  rcases hL : login_with_session w.login1 w.sessionFile with ⟨s1, ev1, err1⟩
  have heng := login_countP_engage w.login1 w.sessionFile
  rw [hL] at heng
  simp only at heng
  cases err1 with
  | some e =>
    simp only [mainRun, hL]
    exact ⟨heng, trivial⟩
  | none =>
    cases hrow : get_closest_media_row w.schedule w.now with
    | error e =>
      have hAL : afterLogin w s1 = ([], some e) := by
        simp only [afterLogin, hrow]
      simp only [mainRun, hL, hAL, List.append_nil]
      exact ⟨heng, trivial⟩
    | ok row =>
      cases hdl : download_file_from_drive w.drive "english_skills_101"
          row.filePath with
      | notFoundFolder =>
        have hAL : afterLogin w s1 = ([], none) := by
          simp only [afterLogin, hrow, hdl]
        simp only [mainRun, hL, hAL, List.append_nil]
        exact ⟨heng, trivial⟩
      | notFoundFile =>
        have hAL : afterLogin w s1 = ([], none) := by
          simp only [afterLogin, hrow, hdl]
        simp only [mainRun, hL, hAL, List.append_nil]
        exact ⟨heng, trivial⟩
      | downloaded path cont =>
        rcases hU : upload_video_and_story w.uploader path row.caption
          with ⟨evU, errU⟩
        have hUeng := (upload_trace_counts w.uploader path row.caption).1
        have hUauth := (upload_trace_counts w.uploader path row.caption).2.1
        rw [hU] at hUeng hUauth
        simp only at hUeng hUauth
        cases errU with
        | some e =>
          have hAL : afterLogin w s1 = (evU, some e) := by
            simp only [afterLogin, hrow, hdl, afterDownload, hU]
          simp only [mainRun, hL, hAL]
          constructor
          · rw [List.countP_append, heng, hUeng]
          · rw [List.countP_append, hUauth]
            simp
        | none =>
          have hE := engagePhase_empty w s1 h
          have hAL : afterLogin w s1 =
              (evU ++ (Event.removeFile path ::
                (if w.jpgExists then [Event.removeFile (path ++ ".jpg")]
                  else [])) ++ [], none) := by
            simp only [afterLogin, hrow, hdl, afterDownload, hU, hE]
          have hReng := (removal_trace_counts path w.jpgExists).1
          have hRauth := (removal_trace_counts path w.jpgExists).2
          simp only [mainRun, hL, hAL, List.append_nil]
          constructor
          · rw [List.countP_append, List.countP_append, heng, hUeng, hReng]
          · rw [List.countP_append, List.countP_append, hUauth, hRauth]
            simp

/-- Concrete run environment for the C7 witness: every login succeeds,
the schedule and Drive produce an asset, uploads succeed, and the chosen
engagement target has zero posts, so the sampler yields `[]`. -/
def wC7 : World :=
  ⟨some "s", ⟨true, true, "d"⟩, ⟨true, true, "d"⟩,
    [⟨0, "x.mp4", "hello"⟩], 0,
    ⟨[⟨"english_skills_101", "fid"⟩], [⟨"x.mp4", "id1", ["fid"], [1]⟩]⟩,
    ⟨fun _ _ => none, fun _ => none⟩, true,
    ⟨fun _ => some 1, fun _ => [], fun _ => some [], fun _ => none,
      fun _ => true⟩, 0, 0⟩

/-- Witness for C7: in `wC7` the sampler returns `[]` and the trace has
no engagement event and only the first login's auth events. -/
theorem C7_skip_engagement_witness :
    (mainRun wC7).1.countP isEngageEvent = 0 ∧
    (mainRun wC7).1.countP isAuthEvent =
      ((login_with_session wC7.login1 wC7.sessionFile).2.1).countP
        isAuthEvent :=
  C7_skip_engagement wC7 rfl

theorem removal_trace_filter (path : String) (b : Bool) :
    (Event.removeFile path ::
      (if b then [Event.removeFile (path ++ ".jpg")] else [])).filter
        isRemoveEvent =
    Event.removeFile path ::
      (if b then [Event.removeFile (path ++ ".jpg")] else []) := by
  cases b <;> rfl

/-- C9: when the run reaches a successful publish, the remove calls of
the whole trace are exactly the downloaded asset followed by the
same-named `.jpg` sidecar when that sidecar exists — so the sidecar is
deleted exactly when present and no other local file is removed. -/
theorem C9_cleanup (w : World) (row : ScheduleRow) (path : String)
    (cont : List Nat)
    (hlogin : (login_with_session w.login1 w.sessionFile).2.2 = none)
    (hrow : get_closest_media_row w.schedule w.now = Except.ok row)
    (hdl : download_file_from_drive w.drive "english_skills_101" row.filePath
      = DriveResult.downloaded path cont)
    (hup : (upload_video_and_story w.uploader path row.caption).2 = none) :
    (mainRun w).1.filter isRemoveEvent =
      Event.removeFile path ::
        (if w.jpgExists then [Event.removeFile (path ++ ".jpg")]
          else []) := by
  rcases hL : login_with_session w.login1 w.sessionFile with ⟨s1, ev1, err1⟩
  rw [hL] at hlogin
  simp only at hlogin
  subst hlogin
  rcases hU : upload_video_and_story w.uploader path row.caption
    with ⟨evU, errU⟩
  rw [hU] at hup
  simp only at hup
  subst hup
  rcases hE : engagePhase w s1 with ⟨evE, errE⟩
  have hEfilter := engagePhase_filter_remove w s1
  rw [hE] at hEfilter
  simp only at hEfilter
  have hAL : afterLogin w s1 =
      (evU ++ (Event.removeFile path ::
        (if w.jpgExists then [Event.removeFile (path ++ ".jpg")]
          else [])) ++ evE, errE) := by
    simp only [afterLogin, hrow, hdl, afterDownload, hU, hE]
  have h1 := login_filter_remove w.login1 w.sessionFile
  rw [hL] at h1
  simp only at h1
  have hUfilter := (upload_trace_counts w.uploader path row.caption).2.2
  rw [hU] at hUfilter
  simp only at hUfilter
  simp only [mainRun, hL, hAL, List.filter_append, h1, hUfilter, hEfilter,
    removal_trace_filter, List.append_nil, List.nil_append]

/-- Concrete run environment for the C9 witness: same as `wC7` — a full
successful publish with the sidecar present. -/
def wC9 : World :=
  ⟨none, ⟨true, true, "d"⟩, ⟨true, true, "d"⟩,
    [⟨0, "x.mp4", "hello"⟩], 0,
    ⟨[⟨"english_skills_101", "fid"⟩], [⟨"x.mp4", "id1", ["fid"], [1]⟩]⟩,
    ⟨fun _ _ => none, fun _ => none⟩, true,
    ⟨fun _ => some 1, fun _ => [], fun _ => some [], fun _ => none,
      fun _ => true⟩, 0, 0⟩

/-- Witness for C9: in `wC9` the removed files are exactly `x.mp4` and
its `.jpg` sidecar. -/
theorem C9_cleanup_witness :
    (mainRun wC9).1.filter isRemoveEvent =
      Event.removeFile "x.mp4" ::
        (if wC9.jpgExists then [Event.removeFile ("x.mp4" ++ ".jpg")]
          else []) :=
  C9_cleanup wC9 ⟨0, "x.mp4", "hello"⟩ "x.mp4" [1] rfl rfl rfl rfl
